import Mathlib

/-
Verification of the enrolment-resolution and status-update client of
edx-learndot (edxlearndot/learndot.py, edxlearndot/models.py).

The embedding is shallow: each Python function of the client is translated
to an executable Lean function over explicit data.  Remote HTTP traffic is
represented by its observable outcome (the parsed result list of a search,
or the success/failure of an update POST), and the Django cache and the
EnrolmentStatusLog table are explicit values threaded through the
functions.  dateutil.parser.parse is an external library; its success or
failure on a date string is abstracted as a Boolean oracle passed to the
functions that validate dates, and a concrete stand-in oracle is provided
for evaluating witnesses.
-/

/-- Raw Learndot enrolment record, as parsed from the JSON response of the
enrolment search endpoint.  Only the fields read by learndot.py are kept.
A field holding none models a key absent from the dict; some "" models a
key present with an empty value.  The code reads these fields only through
Python truthiness ("e.get(k) or d"), which treats the two identically. -/
structure Enrolment where
  id : Nat
  status : String
  expiryDate : Option String
  modified : Option String
  created : Option String
deriving DecidableEq

/-- Python "a or b" on an optional string field: a missing key (none) and
an empty string are both falsy and fall through to b. -/
def orElseStr (a : Option String) (b : String) : String :=
  match a with
  | none => b
  | some s => if s = "" then b else s

/-- Code-point lexicographic strict comparison of character lists.  This
is the order Python uses for str < str: compare code points position by
position, a strict prefix comes first. -/
def lexLtCh : List Char → List Char → Bool
  | [], [] => false
  | [], _ :: _ => true
  | _ :: _, [] => false
  | a :: as, b :: bs =>
    if a.toNat < b.toNat then true
    else if b.toNat < a.toNat then false
    else lexLtCh as bs

/-- Python str less-than, on the underlying character data. -/
def pyStrLt (a b : String) : Bool :=
  lexLtCh a.data b.data

/-- Translation of cmp from learndot.py (the name cmp is taken by
Mathlib): (a > b) - (a < b), specialised to the strings it is applied to,
with Python string comparison. -/
def pyCmp (a b : String) : Int :=
  (if pyStrLt b a then 1 else 0) - (if pyStrLt a b then 1 else 0)

/-- Body of one iteration of the loop of compare_enrolment_sort_keys: the
comparison of one pair of components, falling through to rest when the
components tie.  An empty component sorts after any non-empty one. -/
def compareStep (ds1 ds2 : String) (rest : Int) : Int :=
  if ds1 = "" ∧ ds2 ≠ "" then 1
  else if ds1 ≠ "" ∧ ds2 = "" then -1
  else if pyCmp ds1 ds2 ≠ 0 then pyCmp ds1 ds2
  else rest

/-- Tail of the comparison loop once the first tuple is exhausted: every
remaining component of the second tuple is compared against the padding
empty string. -/
def compareKeysRight : List String → Int
  | [] => 0
  | ds2 :: r2 => compareStep "" ds2 (compareKeysRight r2)

/-- Tail of the comparison loop once the second tuple is exhausted: every
remaining component of the first tuple is compared against the padding
empty string. -/
def compareKeysLeft : List String → Int
  | [] => 0
  | ds1 :: r1 => compareStep ds1 "" (compareKeysLeft r1)

/-- Translation of compare_enrolment_sort_keys: compare two key tuples
component by component, padding the shorter tuple with empty strings, and
return the first non-zero component comparison, or 0 when all tie.  (The
loop over range(max(len, len)) is split into the common part and the two
padded tails so that each recursion is structural.) -/
def compare_enrolment_sort_keys : List String → List String → Int
  | [], t2 => compareKeysRight t2
  | ds1 :: r1, [] => compareStep ds1 "" (compareKeysLeft r1)
  | ds1 :: r1, ds2 :: r2 => compareStep ds1 ds2 (compare_enrolment_sort_keys r1 r2)

/-- Key tuple built by extract_enrolment_sort_key before validation:
(expiryDate or "", modified or created or ""). -/
def enrolment_sort_key (e : Enrolment) : String × String :=
  (orElseStr e.expiryDate "", orElseStr e.modified (orElseStr e.created ""))

/-- Date validation performed by extract_enrolment_sort_key: every
non-empty component of the key must be accepted by dateutil.parser.parse,
whose success is abstracted as the oracle parse. -/
def validate_sort_key (parse : String → Bool) (k : String × String) : Bool :=
  (k.1 == "" || parse k.1) && (k.2 == "" || parse k.2)

/-- Translation of extract_enrolment_sort_key: build the key tuple and
validate each non-empty component; error () stands for the ValueError or
OverflowError raised by dateutil.parser.parse on a bad component. -/
def extract_enrolment_sort_key (parse : String → Bool) (e : Enrolment) :
    Except Unit (String × String) :=
  if validate_sort_key parse (enrolment_sort_key e) then
    .ok (enrolment_sort_key e)
  else
    .error ()

/-- Comparator value of extract_and_compare_enrolment_sort_keys on two
records whose keys have already been validated.  The key tuples are pairs,
fed to the list comparator as 2-element lists. -/
def enrolment_cmp (e1 e2 : Enrolment) : Int :=
  compare_enrolment_sort_keys
    [(enrolment_sort_key e1).1, (enrolment_sort_key e1).2]
    [(enrolment_sort_key e2).1, (enrolment_sort_key e2).2]

/-- Non-strict form of the comparator: e1 may come before e2.  CPython's
sorted with functools.cmp_to_key sorts ascending in the strict order
"comparator < 0", keeping tied elements in input order; a stable sort by
this Boolean relation is its denotation. -/
def enrolment_le (e1 e2 : Enrolment) : Bool :=
  decide (enrolment_cmp e1 e2 ≤ 0)

/-- Insert a into l immediately before the first element b with le a b;
helper of the stable sort. -/
def insertSorted {α : Type} (le : α → α → Bool) (a : α) : List α → List α
  | [] => [a]
  | b :: l => if le a b then a :: b :: l else b :: insertSorted le a l

/-- Stable ascending sort by a Boolean relation (insertion sort).  For a
total preorder it produces the same list as CPython's stable sorted. -/
def stableSort {α : Type} (le : α → α → Bool) : List α → List α
  | [] => []
  | a :: l => insertSorted le a (stableSort le l)

/-- Translation of sort_enrolments_by_expiry.  CPython's sorted with
functools.cmp_to_key wraps each record without reading it and invokes the
comparator (and therefore extract_enrolment_sort_key) only while
comparing, so a list of fewer than two records is returned without any
key ever being extracted or validated.  With two or more records, every
record takes part in at least one comparison, so every record's key is
validated; if any validation fails the ValueError or OverflowError
propagates (modelled as error ()), otherwise the result is the stable
ascending sort by the comparator. -/
def sort_enrolments_by_expiry (parse : String → Bool) (l : List Enrolment) :
    Except Unit (List Enrolment) :=
  match l with
  | [] => .ok []
  | [e] => .ok [e]
  | _ =>
    if l.all (fun e => validate_sort_key parse (enrolment_sort_key e)) then
      .ok (stableSort enrolment_le l)
    else
      .error ()

/-- Values of the EnrolmentStatus enum-like class.  EnrolmentStatus
exposes exactly these eight string attributes equal to their own names, so
hasattr(cls, status) and getattr(cls, status) == status holds exactly for
members of this list. -/
def EnrolmentStatus.values : List String :=
  ["APPROVED", "CANCELLED", "CONFIRMED", "FAILED", "IN_PROGRESS",
   "MISSED", "PASSED", "TENTATIVE"]

/-- Translation of EnrolmentStatus.is_valid. -/
def EnrolmentStatus.is_valid (status : String) : Bool :=
  EnrolmentStatus.values.contains status

/-- Local EnrolmentStatusLog table (models.py): rows keyed by the primary
key learndot_enrolment_id, each holding the last status sent.  The
updated_at timestamp is not modelled; no claim depends on its value. -/
abbrev StatusLog := List (Nat × String)

/-- Row lookup by primary key: EnrolmentStatusLog.objects.get, with none
for DoesNotExist. -/
def lookupStatus : StatusLog → Nat → Option String
  | [], _ => none
  | (k, v) :: rest, e => if k = e then some v else lookupStatus rest e

/-- Net effect of EnrolmentStatusLog.objects.get_or_create followed by
setting status and save: the row for e exists afterwards and holds s,
other rows are untouched. -/
def upsertStatus : StatusLog → Nat → String → StatusLog
  | [], e, s => [(e, s)]
  | (k, v) :: rest, e, s =>
    if k = e then (e, s) :: rest else (k, v) :: upsertStatus rest e s

/-- Python truthiness test "not enrolment_id" on an optional integer id:
true for None and for 0. -/
def pyFalsyId : Option Nat → Bool
  | none => true
  | some n => n == 0

/-- Outcome of one call to set_enrolment_status: either the
LearndotAPIException it raises, or a normal return. -/
inductive SetStatusResult where
  | apiError (msg : String)
  | done
deriving DecidableEq

/-- Observable outcome of set_enrolment_status: how the call ended, the
EnrolmentStatusLog table afterwards, and how many POSTs were made to the
enrolment management endpoint (0 or 1; the retrying decorator around the
function is modelled separately through retry_match). -/
structure SetStatusOutcome where
  result : SetStatusResult
  statusLog : StatusLog
  remoteCalls : Nat
deriving DecidableEq

/-- Message of the LearndotAPIException raised for a falsy enrolment id. -/
def missing_id_msg : String := "Enrolment_id can not be None"

/-- Message of the LearndotAPIException raised for an invalid status. -/
def invalid_status_msg (status : String) : String :=
  "Invalid enrolment status \"" ++ status ++ "\"."

/-- Message wrapping an HTTPError from the enrolment update POST, with e
the str() of the underlying HTTPError. -/
def set_status_error_msg (enrolment_id : Nat) (status : String) (e : String) : String :=
  "Error trying to set status of enrolment " ++ toString enrolment_id
    ++ " to " ++ status ++ ": " ++ e

/-- Translation of LearndotAPIClient.set_enrolment_status.  The remote
argument is the outcome of the update POST, should one be issued: none for
a 2xx response, some err for an HTTPError whose str() is err.  Reading the
sequence of checks off the source: a falsy enrolment_id raises first; an
invalid status raises next, before any remote traffic; unless
unconditional, a status-log row already holding the requested status makes
the call return with no remote traffic; otherwise the POST is issued, a
failure is wrapped and raised, and a success is recorded in the status
log.  In this single-threaded model the log write always succeeds (the
IntegrityError / MultipleObjectsReturned handler in the source can only
trigger under concurrent writers). -/
def set_enrolment_status (remote : Option String) (st : StatusLog)
    (enrolment_id : Option Nat) (status : String) (unconditional : Bool) :
    SetStatusOutcome :=
  if pyFalsyId enrolment_id then
    ⟨.apiError missing_id_msg, st, 0⟩
  else
    let eid := enrolment_id.getD 0
    if ¬ EnrolmentStatus.is_valid status then
      ⟨.apiError (invalid_status_msg status), st, 0⟩
    else if unconditional = false ∧ lookupStatus st eid = some status then
      ⟨.done, st, 0⟩
    else
      match remote with
      | none => ⟨.done, upsertStatus st eid status, 1⟩
      | some err => ⟨.apiError (set_status_error_msg eid status err), st, 1⟩

/-- Raw Learndot contact record, as parsed from the contact search
response; only the fields the client reads are kept. -/
structure Contact where
  id : Nat
  email : String
deriving DecidableEq

/-- Placeholder contact for the unreachable default of headD (Python would
raise IndexError there; the branch guarantees one element). -/
def defaultContact : Contact := ⟨0, ""⟩

/-- Translation of LearndotAPIClient.get_contact_id from the point where
the search response is in hand.  cached is the cache entry for this user's
key (the code returns it unread when present), userEmail the user's email,
results the parsed search results.  Returns the contact id handed back and
the cache entry for the key afterwards: the id is cached exactly when one
was found.  Zero or several exact-email matches return None without
raising. -/
def get_contact_id (cached : Option Nat) (userEmail : String)
    (results : List Contact) : Option Nat × Option Nat :=
  match cached with
  | some cid => (some cid, some cid)
  | none =>
    let contacts := results.filter (fun c => c.email == userEmail)
    let contact_id : Option Nat :=
      if contacts.length = 1 then some (contacts.headD defaultContact).id
      else none
    (contact_id, if contact_id.isSome then contact_id else none)

/-- Placeholder enrolment for the unreachable defaults of headD and
getLastD (the branches guarantee non-emptiness). -/
def defaultEnrolment : Enrolment := ⟨0, "", none, none, none⟩

/-- Records of a search result that survive the status filter of
get_enrolment_id: everything not CANCELLED. -/
def active_enrolments (results : List Enrolment) : List Enrolment :=
  results.filter (fun e => e.status != "CANCELLED")

/-- Message of the LearndotAPIException raised when multiple enrolments
cannot be sorted (the source appends the str() of the inner ValueError or
OverflowError, which the sort model erases to (); the fixed text is kept). -/
def enrolment_search_error_msg (contact_id component_id : Nat) : String :=
  "Multiple enrolments exist for contact " ++ toString contact_id
    ++ ", component " ++ toString component_id
    ++ ", but they could not be sorted by expiry date to determine the latest one."

/-- Translation of LearndotAPIClient.get_enrolment_id from the point where
the enrolment search response is in hand (cache miss; the enrolment cache
write after a successful resolution does not change the returned value).
Excludes CANCELLED records; one survivor returns its id, none returns
none, several sort by expiry and return the id of the last, and a sorting
failure raises the LearndotAPIException. -/
def get_enrolment_id (parse : String → Bool) (contact_id component_id : Nat)
    (results : List Enrolment) : Except String (Option Nat) :=
  let enrolments := active_enrolments results
  if enrolments.length = 1 then
    .ok (some (enrolments.headD defaultEnrolment).id)
  else if 1 < enrolments.length then
    match sort_enrolments_by_expiry parse enrolments with
    | .ok sortedList => .ok (some (sortedList.getLastD defaultEnrolment).id)
    | .error _ => .error (enrolment_search_error_msg contact_id component_id)
  else
    .ok none

/-- Needle matches the front of the haystack (character lists). -/
def leadsWith : List Char → List Char → Bool
  | [], _ => true
  | _ :: _, [] => false
  | a :: as, b :: bs => a == b && leadsWith as bs

/-- Needle occurs contiguously somewhere in the haystack: Python's
"needle in haystack" on character lists. -/
def containsSeq (needle : List Char) : List Char → Bool
  | [] => needle.isEmpty
  | b :: bs => leadsWith needle (b :: bs) || containsSeq needle bs

/-- Python substring test "needle in haystack" on strings. -/
def strContains (needle haystack : String) : Bool :=
  containsSeq needle.data haystack.data

/-- Exception reaching the retrying decorator: either a
LearndotAPIException carrying its message, or any other exception (an
unwrapped network error from requests, for example). -/
inductive RaisedError where
  | learndotAPIException (msg : String)
  | otherException (msg : String)
deriving DecidableEq

/-- Translation of LearndotAPIException.retry_match: retry exactly when
the exception is a LearndotAPIException and its str() contains "429",
"504" or "502" as a substring. -/
def retry_match : RaisedError → Bool
  | .learndotAPIException msg =>
    strContains "429" msg || strContains "504" msg || strContains "502" msg
  | .otherException _ => false

/-- Modelled from the requests library (external to this repository):
str() of the HTTPError raised by Response.raise_for_status for an error
status code, "{code} Client Error: {reason} for url: {url}" below 500 and
"Server Error" from 500. -/
def http_error_str (code : Nat) (reason : String) (url : String) : String :=
  toString code ++ (if code < 500 then " Client Error: " else " Server Error: ")
    ++ reason ++ " for url: " ++ url

/-- Strict form of the component order implemented by compareStep: d1
ranks strictly before d2 when d1 is non-empty and d2 empty, or both are
non-empty and d1 is lexicographically smaller.  An empty component never
ranks before anything. -/
def dateRankLt (d1 d2 : String) : Bool :=
  if d1 = "" then false
  else if d2 = "" then true
  else pyStrLt d1 d2

/-- Concrete stand-in for the dateutil.parser.parse oracle, used to
instantiate witnesses: accepts exactly 19-character strings made of
digits, dashes, colons and spaces (the zero-padded "YYYY-MM-DD HH:MM:SS"
shape Learndot emits) and rejects everything else, such as "HA! NO". -/
def isoLikeParses (s : String) : Bool :=
  s.length == 19 &&
    s.data.all (fun c => c.isDigit || c == '-' || c == ':' || c == ' ')

/-- Enrolment search response used by the witnesses: one cancelled record
and two active ones with distinct expiry dates. -/
def demo_results : List Enrolment :=
  [⟨10, "CANCELLED", some "2019-03-09 05:52:11", none, none⟩,
   ⟨11, "PASSED", some "2019-03-09 05:52:11", none, none⟩,
   ⟨12, "CONFIRMED", some "2018-01-10 00:00:00", none, none⟩]

/-- Enrolment list used by the C6 witness: a record without expiryDate
(but with a late modified date) among records with expiry dates. -/
def demo_mixed : List Enrolment :=
  [⟨21, "PASSED", none, some "2020-05-05 00:00:00", none⟩,
   ⟨22, "PASSED", some "2018-01-10 00:00:00", none, none⟩,
   ⟨23, "PASSED", some "2019-03-09 05:52:11", none, none⟩]

/-- Enrolment list used by the C7 witness: all records carry parseable,
zero-padded expiry dates, with a unique latest one (id 31). -/
def demo_expiring : List Enrolment :=
  [⟨31, "PASSED", some "2019-03-09 05:52:11", none, none⟩,
   ⟨32, "PASSED", some "2018-01-10 00:00:00", none, none⟩,
   ⟨33, "PASSED", some "2018-01-31 00:00:00", none, none⟩]

/-- Stable sort of demo_mixed by the enrolment comparator: the records
with expiry dates in ascending order, then the expiry-less record, despite
its later modified date. -/
def demo_mixed_sorted : List Enrolment :=
  [⟨22, "PASSED", some "2018-01-10 00:00:00", none, none⟩,
   ⟨23, "PASSED", some "2019-03-09 05:52:11", none, none⟩,
   ⟨21, "PASSED", none, some "2020-05-05 00:00:00", none⟩]

/-- Stable sort of demo_expiring by the enrolment comparator: ascending by
expiry date, the unique latest expiry last. -/
def demo_expiring_sorted : List Enrolment :=
  [⟨32, "PASSED", some "2018-01-10 00:00:00", none, none⟩,
   ⟨33, "PASSED", some "2018-01-31 00:00:00", none, none⟩,
   ⟨31, "PASSED", some "2019-03-09 05:52:11", none, none⟩]

/-- Record of demo_expiring with the unique latest expiry date. -/
def demo_latest : Enrolment := ⟨31, "PASSED", some "2019-03-09 05:52:11", none, none⟩

/-- Record with a non-empty expiry date the date parser rejects. -/
def bad_enrolment : Enrolment := ⟨41, "CONFIRMED", some "HA! NO", none, none⟩

/-- Record with a well-formed expiry date. -/
def good_enrolment : Enrolment := ⟨42, "PASSED", some "2018-01-10 00:00:00", none, none⟩

/-- Character code points are distinct for distinct characters. -/
theorem char_toNat_inj {a b : Char} (h : a.toNat = b.toNat) : a = b := by
  have h2 := Char.ofNat_toNat a
  rw [h, Char.ofNat_toNat] at h2
  exact h2.symm

/-- Irreflexivity of the code-point lexicographic order. -/
theorem lexLtCh_irrefl : ∀ a : List Char, lexLtCh a a = false := by
  intro a
  induction a with
  | nil => rfl
  | cons x xs ih => simp [lexLtCh, ih]

/-- Asymmetry of the code-point lexicographic order. -/
theorem lexLtCh_asymm : ∀ a b : List Char, lexLtCh a b = true → lexLtCh b a = false := by
  intro a
  induction a with
  | nil =>
    intro b h
    cases b with
    | nil => simp [lexLtCh] at h
    | cons y ys => rfl
  | cons x xs ih =>
    intro b h
    cases b with
    | nil => simp [lexLtCh] at h
    | cons y ys =>
      simp only [lexLtCh] at h ⊢
      rcases Nat.lt_trichotomy x.toNat y.toNat with hlt | heq | hgt
      · have h1 : ¬ y.toNat < x.toNat := by omega
        simp [hlt, h1]
      · have hx : x = y := char_toNat_inj heq
        subst hx
        simp only [Nat.lt_irrefl, if_false] at h ⊢
        exact ih ys h
      · have h1 : ¬ x.toNat < y.toNat := by omega
        simp [h1, hgt] at h

/-- Transitivity of the code-point lexicographic order. -/
theorem lexLtCh_trans : ∀ a b c : List Char,
    lexLtCh a b = true → lexLtCh b c = true → lexLtCh a c = true := by
  intro a
  induction a with
  | nil =>
    intro b c hab hbc
    cases b with
    | nil => simp [lexLtCh] at hab
    | cons y ys =>
      cases c with
      | nil => simp [lexLtCh] at hbc
      | cons z zs => rfl
  | cons x xs ih =>
    intro b c hab hbc
    cases b with
    | nil => simp [lexLtCh] at hab
    | cons y ys =>
      cases c with
      | nil => simp [lexLtCh] at hbc
      | cons z zs =>
        simp only [lexLtCh] at hab hbc ⊢
        rcases Nat.lt_trichotomy x.toNat y.toNat with h1 | h1 | h1
        · rcases Nat.lt_trichotomy y.toNat z.toNat with h2 | h2 | h2
          · have h3 : x.toNat < z.toNat := Nat.lt_trans h1 h2
            simp [h3]
          · have h3 : x.toNat < z.toNat := by omega
            simp [h3]
          · have hny : ¬ y.toNat < z.toNat := by omega
            simp [hny, h2] at hbc
        · have hx : x = y := char_toNat_inj h1
          subst hx
          simp only [Nat.lt_irrefl, if_false] at hab
          rcases Nat.lt_trichotomy x.toNat z.toNat with h2 | h2 | h2
          · simp [h2]
          · have hx2 : x = z := char_toNat_inj h2
            subst hx2
            simp only [Nat.lt_irrefl, if_false] at hbc ⊢
            exact ih ys zs hab hbc
          · have hn : ¬ x.toNat < z.toNat := by omega
            simp [hn, h2] at hbc
        · have hn : ¬ x.toNat < y.toNat := by omega
          simp [hn, h1] at hab

/-- Two lists neither of which is lexicographically below the other are
equal. -/
theorem lexLtCh_eq_of_not : ∀ a b : List Char,
    lexLtCh a b = false → lexLtCh b a = false → a = b := by
  intro a
  induction a with
  | nil =>
    intro b h1 h2
    cases b with
    | nil => rfl
    | cons y ys => simp [lexLtCh] at h1
  | cons x xs ih =>
    intro b h1 h2
    cases b with
    | nil => simp [lexLtCh] at h2
    | cons y ys =>
      simp only [lexLtCh] at h1 h2
      rcases Nat.lt_trichotomy x.toNat y.toNat with h | h | h
      · simp [h] at h1
      · have hx : x = y := char_toNat_inj h
        subst hx
        simp only [Nat.lt_irrefl, if_false] at h1 h2
        rw [ih ys h1 h2]
      · simp [h] at h2

/-- Irreflexivity of Python string comparison. -/
theorem pyStrLt_irrefl (a : String) : pyStrLt a a = false :=
  lexLtCh_irrefl a.data

/-- Asymmetry of Python string comparison. -/
theorem pyStrLt_asymm {a b : String} (h : pyStrLt a b = true) : pyStrLt b a = false :=
  lexLtCh_asymm _ _ h

/-- Transitivity of Python string comparison. -/
theorem pyStrLt_trans {a b c : String} (h1 : pyStrLt a b = true)
    (h2 : pyStrLt b c = true) : pyStrLt a c = true :=
  lexLtCh_trans _ _ _ h1 h2

/-- Strings neither of which compares below the other are equal. -/
theorem pyStrLt_eq_of_not {a b : String} (h1 : pyStrLt a b = false)
    (h2 : pyStrLt b a = false) : a = b :=
  String.ext (lexLtCh_eq_of_not _ _ h1 h2)

/-- Value of pyCmp on strictly ordered strings. -/
theorem pyCmp_of_lt {a b : String} (h : pyStrLt a b = true) : pyCmp a b = -1 := by
  simp [pyCmp, h, pyStrLt_asymm h]

/-- Value of pyCmp on reversely ordered strings. -/
theorem pyCmp_of_gt {a b : String} (h : pyStrLt b a = true) : pyCmp a b = 1 := by
  simp [pyCmp, h, pyStrLt_asymm h]

/-- Value of pyCmp on order-equivalent strings. -/
theorem pyCmp_of_eq {a b : String} (h1 : pyStrLt a b = false)
    (h2 : pyStrLt b a = false) : pyCmp a b = 0 := by
  simp [pyCmp, h1, h2]

/-- Irreflexivity of the component rank order. -/
theorem dateRankLt_irrefl (d : String) : dateRankLt d d = false := by
  by_cases h : d = "" <;> simp [dateRankLt, h, pyStrLt_irrefl]

/-- Asymmetry of the component rank order. -/
theorem dateRankLt_asymm {d1 d2 : String} (h : dateRankLt d1 d2 = true) :
    dateRankLt d2 d1 = false := by
  unfold dateRankLt at h ⊢
  by_cases e1 : d1 = ""
  · simp [e1] at h
  · by_cases e2 : d2 = ""
    · simp [e1, e2]
    · simp only [e1, e2, if_false] at h ⊢
      exact pyStrLt_asymm h

/-- Transitivity of the component rank order. -/
theorem dateRankLt_trans {d1 d2 d3 : String} (h1 : dateRankLt d1 d2 = true)
    (h2 : dateRankLt d2 d3 = true) : dateRankLt d1 d3 = true := by
  unfold dateRankLt at h1 h2 ⊢
  by_cases e1 : d1 = ""
  · simp [e1] at h1
  · by_cases e2 : d2 = ""
    · simp [e2] at h2
    · by_cases e3 : d3 = ""
      · simp [e1, e3]
      · simp only [e1, e2, e3, if_false] at h1 h2 ⊢
        exact pyStrLt_trans h1 h2

/-- Components neither of which ranks before the other are equal. -/
theorem dateRankLt_eq_of_not {d1 d2 : String} (h1 : dateRankLt d1 d2 = false)
    (h2 : dateRankLt d2 d1 = false) : d1 = d2 := by
  unfold dateRankLt at h1 h2
  by_cases e1 : d1 = ""
  · by_cases e2 : d2 = ""
    · rw [e1, e2]
    · simp [e1, e2] at h2
  · by_cases e2 : d2 = ""
    · simp [e1, e2] at h1
    · simp only [e1, e2, if_false] at h1 h2
      exact pyStrLt_eq_of_not h1 h2

/-- Value of one comparison step when the first component ranks strictly
before the second. -/
theorem compareStep_of_lt {d1 d2 : String} (h : dateRankLt d1 d2 = true) (r : Int) :
    compareStep d1 d2 r = -1 := by
  unfold dateRankLt at h
  by_cases e1 : d1 = ""
  · simp [e1] at h
  · by_cases e2 : d2 = ""
    · simp [compareStep, e1, e2]
    · simp only [e1, e2, if_false] at h
      have hc : pyCmp d1 d2 = -1 := pyCmp_of_lt h
      simp [compareStep, e1, e2, hc]

/-- Value of one comparison step when the second component ranks strictly
before the first. -/
theorem compareStep_of_gt {d1 d2 : String} (h : dateRankLt d2 d1 = true) (r : Int) :
    compareStep d1 d2 r = 1 := by
  unfold dateRankLt at h
  by_cases e2 : d2 = ""
  · simp [e2] at h
  · by_cases e1 : d1 = ""
    · simp [compareStep, e1, e2]
    · simp only [e2, e1, if_false] at h
      have hc : pyCmp d1 d2 = 1 := pyCmp_of_gt h
      simp [compareStep, e1, e2, hc]

/-- One comparison step on a tied pair of components falls through. -/
theorem compareStep_self (d : String) (r : Int) : compareStep d d r = r := by
  have hc : pyCmp d d = 0 := pyCmp_of_eq (pyStrLt_irrefl d) (pyStrLt_irrefl d)
  by_cases e : d = ""
  · subst e
    simp [compareStep, hc]
  · simp [compareStep, e, hc]

/-- Characterisation of "key 1 sorts no later than key 2" for the pair
keys the enrolment comparator works on: lexicographic combination of the
component rank order. -/
theorem compare_pair_le_iff (a1 a2 b1 b2 : String) :
    compare_enrolment_sort_keys [a1, a2] [b1, b2] ≤ 0 ↔
      (dateRankLt a1 b1 = true ∨
        (a1 = b1 ∧ (dateRankLt a2 b2 = true ∨ a2 = b2))) := by
  have hunfold : compare_enrolment_sort_keys [a1, a2] [b1, b2] =
      compareStep a1 b1 (compareStep a2 b2 0) := by
    simp [compare_enrolment_sort_keys, compareKeysRight]
  rw [hunfold]
  by_cases h1 : dateRankLt a1 b1 = true
  · rw [compareStep_of_lt h1]
    simp [h1]
  · by_cases h2 : dateRankLt b1 a1 = true
    · rw [compareStep_of_gt h2]
      constructor
      · intro h
        exact absurd h (by norm_num)
      · rintro (h | ⟨he, _⟩)
        · exact absurd h h1
        · subst he
          rw [dateRankLt_irrefl] at h2
          exact Bool.noConfusion h2
    · have h1f : dateRankLt a1 b1 = false := by
        cases hb : dateRankLt a1 b1
        · rfl
        · exact absurd hb h1
      have h2f : dateRankLt b1 a1 = false := by
        cases hb : dateRankLt b1 a1
        · rfl
        · exact absurd hb h2
      have he : a1 = b1 := dateRankLt_eq_of_not h1f h2f
      subst he
      rw [compareStep_self]
      by_cases g1 : dateRankLt a2 b2 = true
      · rw [compareStep_of_lt g1]
        simp [g1]
      · by_cases g2 : dateRankLt b2 a2 = true
        · rw [compareStep_of_gt g2]
          constructor
          · intro h
            exact absurd h (by norm_num)
          · rintro (h | ⟨-, (h | he)⟩)
            · exact absurd h h1
            · exact absurd h g1
            · subst he
              rw [dateRankLt_irrefl] at g2
              exact Bool.noConfusion g2
        · have g1f : dateRankLt a2 b2 = false := by
            cases hb : dateRankLt a2 b2
            · rfl
            · exact absurd hb g1
          have g2f : dateRankLt b2 a2 = false := by
            cases hb : dateRankLt b2 a2
            · rfl
            · exact absurd hb g2
          have ge : a2 = b2 := dateRankLt_eq_of_not g1f g2f
          subst ge
          rw [compareStep_self]
          simp

/-- Unfolding of the Boolean record comparator through the pair
characterisation. -/
theorem enrolment_le_iff (e1 e2 : Enrolment) :
    enrolment_le e1 e2 = true ↔
      (dateRankLt (enrolment_sort_key e1).1 (enrolment_sort_key e2).1 = true ∨
        ((enrolment_sort_key e1).1 = (enrolment_sort_key e2).1 ∧
          (dateRankLt (enrolment_sort_key e1).2 (enrolment_sort_key e2).2 = true ∨
            (enrolment_sort_key e1).2 = (enrolment_sort_key e2).2))) := by
  unfold enrolment_le enrolment_cmp
  rw [decide_eq_true_iff]
  exact compare_pair_le_iff _ _ _ _

/-- Totality of the record comparator. -/
theorem enrolment_le_total (e1 e2 : Enrolment) :
    enrolment_le e1 e2 = true ∨ enrolment_le e2 e1 = true := by
  rw [enrolment_le_iff, enrolment_le_iff]
  by_cases h1 : dateRankLt (enrolment_sort_key e1).1 (enrolment_sort_key e2).1 = true
  · exact Or.inl (Or.inl h1)
  · by_cases h2 : dateRankLt (enrolment_sort_key e2).1 (enrolment_sort_key e1).1 = true
    · exact Or.inr (Or.inl h2)
    · have h1f : dateRankLt (enrolment_sort_key e1).1 (enrolment_sort_key e2).1 = false := by
        cases hb : dateRankLt (enrolment_sort_key e1).1 (enrolment_sort_key e2).1
        · rfl
        · exact absurd hb h1
      have h2f : dateRankLt (enrolment_sort_key e2).1 (enrolment_sort_key e1).1 = false := by
        cases hb : dateRankLt (enrolment_sort_key e2).1 (enrolment_sort_key e1).1
        · rfl
        · exact absurd hb h2
      have he : (enrolment_sort_key e1).1 = (enrolment_sort_key e2).1 :=
        dateRankLt_eq_of_not h1f h2f
      by_cases g1 : dateRankLt (enrolment_sort_key e1).2 (enrolment_sort_key e2).2 = true
      · exact Or.inl (Or.inr ⟨he, Or.inl g1⟩)
      · by_cases g2 : dateRankLt (enrolment_sort_key e2).2 (enrolment_sort_key e1).2 = true
        · exact Or.inr (Or.inr ⟨he.symm, Or.inl g2⟩)
        · have g1f : dateRankLt (enrolment_sort_key e1).2 (enrolment_sort_key e2).2 = false := by
            cases hb : dateRankLt (enrolment_sort_key e1).2 (enrolment_sort_key e2).2
            · rfl
            · exact absurd hb g1
          have g2f : dateRankLt (enrolment_sort_key e2).2 (enrolment_sort_key e1).2 = false := by
            cases hb : dateRankLt (enrolment_sort_key e2).2 (enrolment_sort_key e1).2
            · rfl
            · exact absurd hb g2
          exact Or.inl (Or.inr ⟨he, Or.inr (dateRankLt_eq_of_not g1f g2f)⟩)

/-- Transitivity of the record comparator. -/
theorem enrolment_le_trans (e1 e2 e3 : Enrolment)
    (h1 : enrolment_le e1 e2 = true) (h2 : enrolment_le e2 e3 = true) :
    enrolment_le e1 e3 = true := by
  rw [enrolment_le_iff] at h1 h2 ⊢
  rcases h1 with h1 | ⟨h1e, h1s⟩
  · rcases h2 with h2 | ⟨h2e, -⟩
    · exact Or.inl (dateRankLt_trans h1 h2)
    · rw [h2e] at h1
      exact Or.inl h1
  · rcases h2 with h2 | ⟨h2e, h2s⟩
    · rw [h1e]
      exact Or.inl h2
    · refine Or.inr ⟨h1e.trans h2e, ?_⟩
      rcases h1s with h1s | h1s
      · rcases h2s with h2s | h2s
        · exact Or.inl (dateRankLt_trans h1s h2s)
        · rw [h2s] at h1s
          exact Or.inl h1s
      · rw [h1s]
        exact h2s

/-- Membership in an insertion. -/
theorem mem_insertSorted {α : Type} (le : α → α → Bool) (a x : α) :
    ∀ l : List α, x ∈ insertSorted le a l ↔ x = a ∨ x ∈ l := by
  intro l
  induction l with
  | nil => simp [insertSorted]
  | cons b t ih =>
    by_cases h : le a b = true
    · simp [insertSorted, h]
    · simp [insertSorted, h, ih]
      tauto

/-- Insertion permutes consing. -/
theorem perm_insertSorted {α : Type} (le : α → α → Bool) (a : α) :
    ∀ l : List α, (insertSorted le a l).Perm (a :: l) := by
  intro l
  induction l with
  | nil => simp [insertSorted]
  | cons b t ih =>
    by_cases h : le a b = true
    · simp [insertSorted, h]
    · have heq : insertSorted le a (b :: t) = b :: insertSorted le a t := by
        simp [insertSorted, h]
      rw [heq]
      exact (ih.cons b).trans (List.Perm.swap a b t)

/-- The stable sort is a permutation of its input. -/
theorem perm_stableSort {α : Type} (le : α → α → Bool) :
    ∀ l : List α, (stableSort le l).Perm l := by
  intro l
  induction l with
  | nil => simp [stableSort]
  | cons a t ih =>
    exact (perm_insertSorted le a (stableSort le t)).trans (ih.cons a)

/-- Inserting into a pairwise-ordered list keeps it pairwise ordered, for
a total transitive Boolean relation. -/
theorem pairwise_insertSorted {α : Type} (le : α → α → Bool)
    (htot : ∀ x y, le x y = true ∨ le y x = true)
    (htrans : ∀ x y z, le x y = true → le y z = true → le x z = true)
    (a : α) :
    ∀ l : List α, l.Pairwise (fun x y => le x y = true) →
      (insertSorted le a l).Pairwise (fun x y => le x y = true) := by
  intro l
  induction l with
  | nil =>
    intro _
    simp [insertSorted]
  | cons b t ih =>
    intro hp
    rw [List.pairwise_cons] at hp
    obtain ⟨hb, ht⟩ := hp
    by_cases h : le a b = true
    · have heq : insertSorted le a (b :: t) = a :: b :: t := by
        simp [insertSorted, h]
      rw [heq, List.pairwise_cons]
      constructor
      · intro x hx
        rcases List.mem_cons.mp hx with rfl | hx2
        · exact h
        · exact htrans a b x h (hb x hx2)
      · rw [List.pairwise_cons]
        exact ⟨hb, ht⟩
    · have hba : le b a = true := (htot a b).resolve_left h
      have heq : insertSorted le a (b :: t) = b :: insertSorted le a t := by
        simp [insertSorted, h]
      rw [heq, List.pairwise_cons]
      constructor
      · intro x hx
        rcases (mem_insertSorted le a x t).mp hx with rfl | hx2
        · exact hba
        · exact hb x hx2
      · exact ih ht

/-- The stable sort is pairwise ordered, for a total transitive Boolean
relation. -/
theorem pairwise_stableSort {α : Type} (le : α → α → Bool)
    (htot : ∀ x y, le x y = true ∨ le y x = true)
    (htrans : ∀ x y z, le x y = true → le y z = true → le x z = true) :
    ∀ l : List α, (stableSort le l).Pairwise (fun x y => le x y = true) := by
  intro l
  induction l with
  | nil => simp [stableSort]
  | cons a t ih => exact pairwise_insertSorted le htot htrans a _ ih

/-- Whenever sort_enrolments_by_expiry succeeds, its output is the stable
sort of its input (a list of fewer than two records is its own stable
sort). -/
theorem sort_ok_eq {parse : String → Bool} {l out : List Enrolment}
    (h : sort_enrolments_by_expiry parse l = .ok out) :
    out = stableSort enrolment_le l := by
  match l with
  | [] =>
    simp [sort_enrolments_by_expiry] at h
    simp [stableSort, h]
  | [e] =>
    simp [sort_enrolments_by_expiry] at h
    simp [stableSort, insertSorted, h]
  | a :: b :: t =>
    have hrw : sort_enrolments_by_expiry parse (a :: b :: t) =
        (if (a :: b :: t).all (fun e => validate_sort_key parse (enrolment_sort_key e)) then
          .ok (stableSort enrolment_le (a :: b :: t))
        else
          .error ()) := by
      rfl
    rw [hrw] at h
    by_cases hv : ((a :: b :: t).all
        (fun e => validate_sort_key parse (enrolment_sort_key e))) = true
    · rw [if_pos hv] at h
      injection h with h
      exact h.symm
    · rw [if_neg hv] at h
      exact Except.noConfusion h

/-- Whenever sort_enrolments_by_expiry succeeds, its output is pairwise
ordered by the record comparator. -/
theorem sorted_sort_enrolments {parse : String → Bool} {l out : List Enrolment}
    (h : sort_enrolments_by_expiry parse l = .ok out) :
    out.Pairwise (fun x y => enrolment_le x y = true) := by
  rw [sort_ok_eq h]
  exact pairwise_stableSort enrolment_le enrolment_le_total enrolment_le_trans l

/-- Whenever sort_enrolments_by_expiry succeeds, its output is a
permutation of its input. -/
theorem perm_sort_enrolments {parse : String → Bool} {l out : List Enrolment}
    (h : sort_enrolments_by_expiry parse l = .ok out) :
    out.Perm l := by
  rw [sort_ok_eq h]
  exact perm_stableSort enrolment_le l

/-- After an upsert for enrolment e with status s, the row for e holds s. -/
theorem lookupStatus_upsertStatus (st : StatusLog) (e : Nat) (s : String) :
    lookupStatus (upsertStatus st e s) e = some s := by
  induction st with
  | nil => simp [upsertStatus, lookupStatus]
  | cons p rest ih =>
    obtain ⟨k, v⟩ := p
    by_cases h : k = e
    · subst h
      simp [upsertStatus, lookupStatus]
    · simp [upsertStatus, lookupStatus, h, ih]

/-- C10: for every falsy enrolment_id argument (None or 0),
set_enrolment_status raises the LearndotAPIException for a missing
enrolment id, regardless of the status argument (even a valid one), the
unconditional flag, the status log and the remote endpoint: no remote call
is made (remoteCalls = 0) and the status log is returned unchanged, so the
falsy id is rejected at the interface before validation, before any log
read or write and before any remote traffic. -/
theorem set_enrolment_status_falsy_id (remote : Option String) (st : StatusLog)
    (eid : Option Nat) (heid : pyFalsyId eid = true) (s : String) (u : Bool) :
    set_enrolment_status remote st eid s u = ⟨.apiError missing_id_msg, st, 0⟩ := by
  simp [set_enrolment_status, heid]

/-- Witness for C10 at a concrete falsy id: enrolment id 0 with the valid
status PASSED is rejected with the missing-id error, not the
invalid-status error, with no remote call and an unchanged log. -/
theorem set_enrolment_status_falsy_id_witness :
    set_enrolment_status none [(3, "CONFIRMED")] (some 0) "PASSED" false =
      ⟨.apiError missing_id_msg, [(3, "CONFIRMED")], 0⟩ :=
  set_enrolment_status_falsy_id none [(3, "CONFIRMED")] (some 0) (by decide)
    "PASSED" false

/-- C4: for every status string outside the EnrolmentStatus enum and every
non-falsy enrolment id, set_enrolment_status raises the invalid-status
LearndotAPIException, performs no remote call (remoteCalls = 0) and
returns the status log unchanged, for any unconditional flag and any
remote endpoint behaviour. -/
theorem set_enrolment_status_invalid_status (remote : Option String)
    (st : StatusLog) (e : Nat) (he : e ≠ 0) (s : String)
    (hs : EnrolmentStatus.is_valid s = false) (u : Bool) :
    set_enrolment_status remote st (some e) s u =
      ⟨.apiError (invalid_status_msg s), st, 0⟩ := by
  have hf : pyFalsyId (some e) = false := by
    simp [pyFalsyId, he]
  simp [set_enrolment_status, hf, hs]

/-- Witness for C4 at a concrete invalid status (the one the repository's
tests use): no remote call, log unchanged, invalid-status error. -/
theorem set_enrolment_status_invalid_status_witness :
    set_enrolment_status none [(5, "CONFIRMED")] (some 5) "BUNGLED" false =
      ⟨.apiError (invalid_status_msg "BUNGLED"), [(5, "CONFIRMED")], 0⟩ :=
  set_enrolment_status_invalid_status none [(5, "CONFIRMED")] 5 (by decide)
    "BUNGLED" (by decide) false

/-- C9: whenever a call to set_enrolment_status returns normally with the
remote update call having been issued (and hence succeeded), the status
log afterwards contains a row for the enrolment whose recorded status is
exactly the status that was sent. -/
theorem set_enrolment_status_records_status (remote : Option String)
    (st : StatusLog) (e : Nat) (s : String) (u : Bool)
    (hdone : (set_enrolment_status remote st (some e) s u).result = .done)
    (hcall : (set_enrolment_status remote st (some e) s u).remoteCalls = 1) :
    lookupStatus (set_enrolment_status remote st (some e) s u).statusLog e = some s := by
  by_cases hf : pyFalsyId (some e) = true
  · simp [set_enrolment_status, hf] at hdone
  · have hf2 : pyFalsyId (some e) = false := by
      cases hb : pyFalsyId (some e)
      · rfl
      · exact absurd hb hf
    by_cases hv : EnrolmentStatus.is_valid s = true
    · by_cases hskip : (u = false ∧ lookupStatus st e = some s)
      · simp [set_enrolment_status, hf2, hv, hskip] at hcall
      · cases remote with
        | none =>
          simp [set_enrolment_status, hf2, hv, hskip]
          exact lookupStatus_upsertStatus st e s
        | some err =>
          simp [set_enrolment_status, hf2, hv, hskip] at hdone
    · simp [set_enrolment_status, hf2, hv] at hdone

/-- Witness for C9 at a concrete successful update: after sending PASSED
for enrolment 7, the log records PASSED for 7. -/
theorem set_enrolment_status_records_status_witness :
    lookupStatus (set_enrolment_status none [] (some 7) "PASSED" false).statusLog 7 =
      some "PASSED" :=
  set_enrolment_status_records_status none [] 7 "PASSED" false (by decide) (by decide)

/-- C2: calling set_enrolment_status twice in a row with the same valid
status, a real enrolment id, unconditional false and a succeeding remote
endpoint, from a status log that does not already record that status for
the id, issues exactly one remote update: the first call makes the single
POST, and the second call finds the recorded status equal to the requested
one, returns normally with zero remote calls and leaves the status log
exactly as the first call left it. -/
theorem set_enrolment_status_idempotent (s : String)
    (hs : EnrolmentStatus.is_valid s = true) (e : Nat) (he : e ≠ 0)
    (st0 : StatusLog) (h0 : lookupStatus st0 e ≠ some s) :
    (set_enrolment_status none st0 (some e) s false).remoteCalls = 1 ∧
    set_enrolment_status none
        (set_enrolment_status none st0 (some e) s false).statusLog
        (some e) s false =
      ⟨.done, (set_enrolment_status none st0 (some e) s false).statusLog, 0⟩ := by
  have hf2 : pyFalsyId (some e) = false := by
    simp [pyFalsyId, he]
  have h1 : set_enrolment_status none st0 (some e) s false =
      ⟨.done, upsertStatus st0 e s, 1⟩ := by
    simp [set_enrolment_status, hf2, hs, h0]
  have h2 : lookupStatus (upsertStatus st0 e s) e = some s :=
    lookupStatus_upsertStatus st0 e s
  constructor
  · rw [h1]
  · rw [h1]
    simp [set_enrolment_status, hf2, hs, h2]

/-- Witness for C2 from the empty status log: sending PASSED for
enrolment 7 twice makes one remote call and the second call is a no-op. -/
theorem set_enrolment_status_idempotent_witness :
    (set_enrolment_status none [] (some 7) "PASSED" false).remoteCalls = 1 ∧
    set_enrolment_status none
        (set_enrolment_status none [] (some 7) "PASSED" false).statusLog
        (some 7) "PASSED" false =
      ⟨.done, (set_enrolment_status none [] (some 7) "PASSED" false).statusLog, 0⟩ :=
  set_enrolment_status_idempotent "PASSED" (by decide) 7 (by decide) [] (by decide)

/-- C5: on a cache miss, contact resolution with exactly one exact-email
match among the (client-side filtered) search results returns that
contact's id and caches it; with zero matches or several matches it
returns None (raising nothing) and caches nothing. -/
theorem get_contact_id_spec (email : String) (rs : List Contact) :
    (∀ c : Contact, rs.filter (fun x => x.email == email) = [c] →
        get_contact_id none email rs = (some c.id, some c.id)) ∧
    ((rs.filter (fun x => x.email == email) = [] ∨
        1 < (rs.filter (fun x => x.email == email)).length) →
      get_contact_id none email rs = (none, none)) := by
  constructor
  · intro c hc
    simp [get_contact_id, hc]
  · intro h
    rcases h with h | h
    · simp [get_contact_id, h]
    · have hne : (rs.filter (fun x => x.email == email)).length ≠ 1 := by omega
      simp [get_contact_id, hne]

/-- Witness for C5 on a concrete search result with one exact match (the
other contact's email differs): the match's id is returned and cached. -/
theorem get_contact_id_spec_witness :
    get_contact_id none "test@gmail.com"
      [⟨1, "test@gmail.com"⟩, ⟨2, "other@gmail.com"⟩] = (some 1, some 1) :=
  (get_contact_id_spec "test@gmail.com"
      [⟨1, "test@gmail.com"⟩, ⟨2, "other@gmail.com"⟩]).1
    ⟨1, "test@gmail.com"⟩ (by decide)

/-- C6: in any list sort_enrolments_by_expiry returns, every record that
lacks an expiry date (empty first key component) is placed after every
record that has one, whatever the expiry-less records' modified or created
values: a record with an expiry date never appears at a later position
than a record without one. -/
theorem sort_missing_expiry_last (parse : String → Bool) (l out : List Enrolment)
    (hok : sort_enrolments_by_expiry parse l = .ok out)
    (i j : Fin out.length) (hij : i < j)
    (hj : (enrolment_sort_key (out.get j)).1 ≠ "") :
    (enrolment_sort_key (out.get i)).1 ≠ "" := by
  have hp := sorted_sort_enrolments hok
  have hle := List.pairwise_iff_get.mp hp i j hij
  rw [enrolment_le_iff] at hle
  intro hi
  rcases hle with hlt | ⟨heq, -⟩
  · rw [hi] at hlt
    simp [dateRankLt] at hlt
  · rw [hi] at heq
    exact hj heq.symm

/-- Witness for C6 on demo_mixed: in the sorted output the record at
position 0 carries an expiry date, given that the record at position 1
does — even though the expiry-less record of the input has the latest
modified date. -/
theorem sort_missing_expiry_last_witness :
    (enrolment_sort_key (demo_mixed_sorted.get ⟨0, by decide⟩)).1 ≠ "" :=
  sort_missing_expiry_last isoLikeParses demo_mixed demo_mixed_sorted (by rfl)
    ⟨0, by decide⟩ ⟨1, by decide⟩ (by decide) (by decide)

/-- C7: when every record of the input carries an expiry date, any list
sort_enrolments_by_expiry returns is ordered ascending by the expiry date
strings under code-point lexicographic comparison (no later element's
expiry compares below an earlier element's), and a record whose expiry
date is strictly latest among all records is the last element of the
result. -/
theorem sort_expiry_ascending (parse : String → Bool) (l out : List Enrolment)
    (hall : ∀ e ∈ l, (enrolment_sort_key e).1 ≠ "")
    (hok : sort_enrolments_by_expiry parse l = .ok out) :
    (∀ i j : Fin out.length, i < j →
        pyStrLt (enrolment_sort_key (out.get j)).1
          (enrolment_sort_key (out.get i)).1 = false) ∧
    (∀ r ∈ l, (∀ r2 ∈ l, r2 ≠ r →
          pyStrLt (enrolment_sort_key r2).1 (enrolment_sort_key r).1 = true) →
      out.getLast? = some r) := by
  have hp := sorted_sort_enrolments hok
  have hperm := perm_sort_enrolments hok
  have hmem : ∀ x ∈ out, x ∈ l := fun x hx => hperm.mem_iff.mp hx
  have hasc : ∀ i j : Fin out.length, i < j →
      pyStrLt (enrolment_sort_key (out.get j)).1
        (enrolment_sort_key (out.get i)).1 = false := by
    intro i j hij
    have hgi : out.get i ∈ out := List.get_mem out i.1 i.2
    have hgj : out.get j ∈ out := List.get_mem out j.1 j.2
    have hi := hall _ (hmem _ hgi)
    have hj := hall _ (hmem _ hgj)
    have hle := List.pairwise_iff_get.mp hp i j hij
    rw [enrolment_le_iff] at hle
    rcases hle with hlt | ⟨heq, -⟩
    · unfold dateRankLt at hlt
      rw [if_neg hi, if_neg hj] at hlt
      exact pyStrLt_asymm hlt
    · rw [heq]
      exact pyStrLt_irrefl _
  refine ⟨hasc, ?_⟩
  intro r hr hmax
  have hrout : r ∈ out := hperm.mem_iff.mpr hr
  have hne : out ≠ [] := List.ne_nil_of_mem hrout
  have hlen : 0 < out.length := List.length_pos.mpr hne
  rw [List.getLast?_eq_getLast out hne, List.getLast_eq_getElem out hne,
    ← List.get_eq_getElem out ⟨out.length - 1, by omega⟩]
  by_cases hzr : out.get ⟨out.length - 1, by omega⟩ = r
  · rw [hzr]
  · exfalso
    have hzout : out.get ⟨out.length - 1, by omega⟩ ∈ out :=
      List.get_mem out (out.length - 1) (by omega)
    have hzl := hmem _ hzout
    have htrue := hmax _ hzl hzr
    obtain ⟨idx, hidx⟩ := List.mem_iff_get.mp hrout
    by_cases hend : idx.1 = out.length - 1
    · apply hzr
      rw [← hidx]
      congr 1
      exact Fin.ext hend.symm
    · have hij : idx < (⟨out.length - 1, by omega⟩ : Fin out.length) := by
        have := idx.2
        exact Fin.mk_lt_mk.mpr (by omega) |>.trans_eq rfl
      have hfalse := hasc idx ⟨out.length - 1, by omega⟩ hij
      rw [hidx] at hfalse
      rw [hfalse] at htrue
      exact Bool.noConfusion htrue

/-- Witness for C7 on demo_expiring: the sorted output ends with the
record holding the unique latest expiry date. -/
theorem sort_expiry_ascending_witness :
    demo_expiring_sorted.getLast? = some demo_latest :=
  (sort_expiry_ascending isoLikeParses demo_expiring demo_expiring_sorted
      (by decide) (by rfl)).2 demo_latest (by decide) (by decide)

/-- C8 counterexample: a single-record list whose expiryDate is the
non-empty unparseable string "HA! NO" is returned unchanged by
sort_enrolments_by_expiry instead of failing — CPython's sorted performs
no comparison on a list of fewer than two elements, so the key is never
extracted and dateutil never sees the bad date.  The second and third
conjuncts exhibit that the record does satisfy the claim's hypothesis:
its expiry component is non-empty and the parser rejects it. -/
theorem sort_singleton_unparseable_ok :
    sort_enrolments_by_expiry isoLikeParses [bad_enrolment] = .ok [bad_enrolment] ∧
    (enrolment_sort_key bad_enrolment).1 ≠ "" ∧
    isoLikeParses (enrolment_sort_key bad_enrolment).1 = false :=
  ⟨rfl, by decide, by decide⟩

/-- C8 (amended): for every list of at least two enrolment records
containing at least one record whose sort key fails date validation (a
non-empty unparseable expiryDate or fallback modified/created value),
sort_enrolments_by_expiry fails with the propagated parse error instead of
producing a sorted list. -/
theorem sort_unparseable_error (parse : String → Bool) (l : List Enrolment)
    (hlen : 2 ≤ l.length)
    (hbad : ∃ e ∈ l, validate_sort_key parse (enrolment_sort_key e) = false) :
    sort_enrolments_by_expiry parse l = .error () := by
  match l with
  | [] => simp at hlen
  | [e] => simp at hlen
  | a :: b :: t =>
    have hrw : sort_enrolments_by_expiry parse (a :: b :: t) =
        (if (a :: b :: t).all (fun e => validate_sort_key parse (enrolment_sort_key e)) then
          .ok (stableSort enrolment_le (a :: b :: t))
        else
          .error ()) := by
      rfl
    have hneg : ¬ ((a :: b :: t).all
        (fun e => validate_sort_key parse (enrolment_sort_key e))) = true := by
      intro hall
      obtain ⟨e, hel, hbadv⟩ := hbad
      have hv := List.all_eq_true.mp hall e hel
      rw [hbadv] at hv
      exact Bool.noConfusion hv
    rw [hrw, if_neg hneg]

/-- Witness for the amended C8 on the repository's own test data: the
two-record list with the "HA! NO" expiry date fails to sort. -/
theorem sort_unparseable_error_witness :
    sort_enrolments_by_expiry isoLikeParses [bad_enrolment, good_enrolment] =
      .error () :=
  sort_unparseable_error isoLikeParses [bad_enrolment, good_enrolment] (by decide)
    ⟨bad_enrolment, by decide, by decide⟩

/-- C1: get_enrolment_id first discards every CANCELLED record; if nothing
remains (in particular when every search result is cancelled) it returns
None; if exactly one record remains it returns that record's id; if more
than one remains and they sort, it returns the id of the last element of
the sorted list; and if sorting fails with the parse/overflow condition,
the whole operation fails with the LearndotAPIException instead of
returning an arbitrary record. -/
theorem get_enrolment_id_spec (parse : String → Bool) (cid kid : Nat)
    (rs : List Enrolment) :
    ((∀ e ∈ rs, e.status = "CANCELLED") →
        get_enrolment_id parse cid kid rs = .ok none) ∧
    (∀ a : Enrolment, active_enrolments rs = [a] →
        get_enrolment_id parse cid kid rs = .ok (some a.id)) ∧
    (1 < (active_enrolments rs).length →
      (∀ out : List Enrolment,
          sort_enrolments_by_expiry parse (active_enrolments rs) = .ok out →
          ∃ a : Enrolment, out.getLast? = some a ∧
            get_enrolment_id parse cid kid rs = .ok (some a.id)) ∧
      (sort_enrolments_by_expiry parse (active_enrolments rs) = .error () →
        get_enrolment_id parse cid kid rs =
          .error (enrolment_search_error_msg cid kid))) := by
  refine ⟨?_, ?_, ?_⟩
  · intro h
    have he : active_enrolments rs = [] := by
      rw [active_enrolments, List.filter_eq_nil_iff]
      intro a ha
      simp [h a ha]
    simp [get_enrolment_id, he]
  · intro a ha
    simp [get_enrolment_id, ha]
  · intro hlen
    have hne1 : (active_enrolments rs).length ≠ 1 := by omega
    constructor
    · intro out hok
      have hperm := perm_sort_enrolments hok
      have hlenout : out.length = (active_enrolments rs).length := hperm.length_eq
      have hne : out ≠ [] := by
        intro hnil
        rw [hnil] at hlenout
        simp at hlenout
        omega
      have hgl : out.getLastD defaultEnrolment = out.getLast hne := by
        rw [List.getLastD_eq_getLast?, List.getLast?_eq_getLast out hne]
        rfl
      refine ⟨out.getLast hne, List.getLast?_eq_getLast out hne, ?_⟩
      simp [get_enrolment_id, hne1, hlen, hok, hgl,
        List.getLast?_eq_getLast out hne]
    · intro herr
      simp [get_enrolment_id, hne1, hlen, herr]

/-- Witness for C1 on demo_results: the cancelled record is discarded, the
two active ones sort by expiry, and the id of the latest-expiring record
is returned. -/
theorem get_enrolment_id_spec_witness :
    get_enrolment_id isoLikeParses 1 2 demo_results = .ok (some 11) := by
  obtain ⟨a, ha, hres⟩ :=
    ((get_enrolment_id_spec isoLikeParses 1 2 demo_results).2.2 (by decide)).1
      [⟨12, "CONFIRMED", some "2018-01-10 00:00:00", none, none⟩,
       ⟨11, "PASSED", some "2019-03-09 05:52:11", none, none⟩] (by rfl)
  have h2 : ([⟨12, "CONFIRMED", some "2018-01-10 00:00:00", none, none⟩,
      ⟨11, "PASSED", some "2019-03-09 05:52:11", none, none⟩] : List Enrolment).getLast? =
      some ⟨11, "PASSED", some "2019-03-09 05:52:11", none, none⟩ := rfl
  rw [h2] at ha
  injection ha with ha2
  rw [← ha2] at hres
  exact hres

/-- A needle leads a haystack exactly when the haystack extends it. -/
theorem leadsWith_iff : ∀ n h : List Char, leadsWith n h = true ↔ ∃ t, h = n ++ t := by
  intro n
  induction n with
  | nil =>
    intro h
    simp [leadsWith]
  | cons a as ih =>
    intro h
    cases h with
    | nil => simp [leadsWith]
    | cons b bs =>
      simp only [leadsWith, Bool.and_eq_true, beq_iff_eq]
      constructor
      · rintro ⟨rfl, h2⟩
        obtain ⟨t, rfl⟩ := (ih bs).mp h2
        exact ⟨t, rfl⟩
      · rintro ⟨t, ht⟩
        rw [List.cons_append] at ht
        injection ht with h1 h2
        exact ⟨h1.symm, (ih bs).mpr ⟨t, h2⟩⟩

/-- Python's "in" on character lists coincides with the existence of a
decomposition around the needle. -/
theorem containsSeq_iff (n : List Char) : ∀ h : List Char,
    containsSeq n h = true ↔ ∃ s t, h = s ++ n ++ t := by
  intro h
  induction h with
  | nil =>
    simp only [containsSeq, List.isEmpty_iff]
    constructor
    · intro he
      exact ⟨[], [], by simp [he]⟩
    · rintro ⟨s, t, hst⟩
      have h2 := hst.symm
      rw [List.append_eq_nil, List.append_eq_nil] at h2
      exact h2.1.2
  | cons b bs ih =>
    simp only [containsSeq, Bool.or_eq_true, leadsWith_iff, ih]
    constructor
    · rintro (⟨t, ht⟩ | ⟨s, t, hst⟩)
      · exact ⟨[], t, by simp [ht]⟩
      · exact ⟨b :: s, t, by simp [hst]⟩
    · rintro ⟨s, t, hst⟩
      cases s with
      | nil =>
        left
        exact ⟨t, by simpa using hst⟩
      | cons c cs =>
        right
        rw [List.cons_append, List.cons_append] at hst
        injection hst with h1 h2
        exact ⟨cs, t, h2⟩

/-- Python's "needle in haystack" on strings coincides with the existence
of a decomposition of the haystack around the needle. -/
theorem strContains_iff (n h : String) :
    strContains n h = true ↔ ∃ s t : String, h = s ++ n ++ t := by
  unfold strContains
  rw [containsSeq_iff]
  constructor
  · rintro ⟨s, t, hst⟩
    refine ⟨⟨s⟩, ⟨t⟩, ?_⟩
    apply String.ext
    rw [String.data_append, String.data_append]
    exact hst
  · rintro ⟨s, t, rfl⟩
    refine ⟨s.data, t.data, ?_⟩
    rw [String.data_append, String.data_append]

/-- C3 counterexample: a LearndotAPIException wrapping an HTTP 400
response about enrolment 4290 is classified retryable — the digits "429"
occur inside "4290" — although the underlying transport failure is HTTP
400, which is none of 429, 502, 504.  So retryability is not determined by
the response's status code alone. -/
theorem retry_match_counterexample :
    retry_match (.learndotAPIException (set_status_error_msg 4290 "PASSED"
        (http_error_str 400 "Bad Request"
          "https://learndot.example.com/api/rest/v2/manage/enrolment/4290"))) =
      true ∧
    (400 : Nat) ≠ 429 ∧ (400 : Nat) ≠ 502 ∧ (400 : Nat) ≠ 504 :=
  ⟨by decide, by decide, by decide, by decide⟩

/-- C3 (amended): retry_match classifies an error as retryable exactly
when it is a LearndotAPIException whose message contains the character
sequence "429", "504" or "502" anywhere; in particular every message
embedding one of the status codes 429, 502, 504 is retryable, and no
exception other than a LearndotAPIException is ever retried — but, per
the counterexample, a message merely containing those digits (for example
one naming enrolment 4290 under an HTTP 400 failure) is retried too. -/
theorem retry_match_characterization :
    (∀ err : RaisedError, retry_match err = true ↔
      ∃ m : String, err = .learndotAPIException m ∧
        ((∃ s t : String, m = s ++ "429" ++ t) ∨
          (∃ s t : String, m = s ++ "504" ++ t) ∨
          (∃ s t : String, m = s ++ "502" ++ t))) ∧
    (∀ code : Nat, code = 429 ∨ code = 502 ∨ code = 504 →
      ∀ msgStart msgEnd : String,
        retry_match (.learndotAPIException
          (msgStart ++ toString code ++ msgEnd)) = true) := by
  constructor
  · intro err
    cases err with
    | learndotAPIException m =>
      simp only [retry_match, Bool.or_eq_true, strContains_iff]
      constructor
      · rintro ((h | h) | h)
        · exact ⟨m, rfl, Or.inl h⟩
        · exact ⟨m, rfl, Or.inr (Or.inl h)⟩
        · exact ⟨m, rfl, Or.inr (Or.inr h)⟩
      · rintro ⟨m2, hm, hc⟩
        injection hm with hm
        subst hm
        rcases hc with h | h | h
        · exact Or.inl (Or.inl h)
        · exact Or.inl (Or.inr h)
        · exact Or.inr h
    | otherException m => simp [retry_match]
  · rintro code (rfl | rfl | rfl) msgStart msgEnd
    · have hts : toString (429 : Nat) = "429" := rfl
      rw [hts]
      have hc : strContains "429" (msgStart ++ "429" ++ msgEnd) = true :=
        (strContains_iff "429" (msgStart ++ "429" ++ msgEnd)).mpr
          ⟨msgStart, msgEnd, rfl⟩
      simp [retry_match, hc]
    · have hts : toString (502 : Nat) = "502" := rfl
      rw [hts]
      have hc : strContains "502" (msgStart ++ "502" ++ msgEnd) = true :=
        (strContains_iff "502" (msgStart ++ "502" ++ msgEnd)).mpr
          ⟨msgStart, msgEnd, rfl⟩
      simp [retry_match, hc]
    · have hts : toString (504 : Nat) = "504" := rfl
      rw [hts]
      have hc : strContains "504" (msgStart ++ "504" ++ msgEnd) = true :=
        (strContains_iff "504" (msgStart ++ "504" ++ msgEnd)).mpr
          ⟨msgStart, msgEnd, rfl⟩
      simp [retry_match, hc]

/-- Witness for the amended C3: a genuine 429 rate-limit error message is
retried. -/
theorem retry_match_characterization_witness :
    retry_match (.learndotAPIException
      ("Error looking up Learndot contact for user staff: " ++ toString (429 : Nat) ++
        " Client Error: Too Many Requests for url: contact/search")) = true :=
  retry_match_characterization.2 429 (Or.inl rfl)
    "Error looking up Learndot contact for user staff: "
    " Client Error: Too Many Requests for url: contact/search"
